import Mathlib

/-!
Verification of the static world-map model (server `Map` class):
coordinate indexing, collision resolution, door linking, rotated-tile
decoding and static area grouping.  Definitions are shallow embeddings of
the TypeScript source; JavaScript semantics (truthiness, `%` as truncated
remainder, `Math.floor` division, object-key overwrite) are made explicit.
-/

namespace KaetramMap

/-- A cell of the tile dataset: `this.data[index]` is either a single tile
identifier or an ordered stack of identifiers. -/
inductive Tile where
  | single : Nat → Tile
  | stack : List Nat → Tile
deriving DecidableEq

/-- A fully linked door entry (`ProcessedDoor`): destination coordinates and
orientation together with the source door's gating metadata. -/
structure ProcessedDoor where
  x : Int
  y : Int
  orientation : String
  quest : String
  achievement : String
  stage : Int
deriving DecidableEq

/-- The fields of a raw door entry (`ProcessedArea` as used by `loadDoors`):
its own identifier, position, optional destination reference, optional
orientation and optional quest/achievement/stage metadata.  `Option` models
a possibly-absent (undefined) field. -/
structure ProcessedArea where
  id : Int
  x : Int
  y : Int
  destination : Option Int := none
  orientation : Option String := none
  quest : Option String := none
  achievement : Option String := none
  stage : Option Int := none
deriving DecidableEq

/-- JavaScript `a || b` for an optional string `a`: the default is used when
the field is absent or the empty string (both falsy). -/
def jsOrString (a : Option String) (b : String) : String :=
  match a with
  | none => b
  | some s => if s = "" then b else s

/-- JavaScript `a || b` for an optional integer `a`: the default is used when
the field is absent or `0` (both falsy). -/
def jsOrInt (a : Option Int) (b : Int) : Int :=
  match a with
  | none => b
  | some n => if n = 0 then b else n

/-- `coordToIndex(x, y)`: `y * this.width + x` (source line 123-125). -/
def coordToIndex (width x y : Int) : Int :=
  y * width + x

/-- `indexToCoord(index)`: `x = index % width`, `y = Math.floor(index / width)`
(source line 134-139).  JavaScript `%` is the truncated remainder
(`Int.tmod`) and `Math.floor` of the quotient is floor division
(`Int.fdiv`). -/
def indexToCoord (width index : Int) : Int × Int :=
  (index.tmod width, index.fdiv width)

/-- `isOutOfBounds(x, y)` (source line 171-173). -/
def isOutOfBounds (width height x y : Int) : Bool :=
  x < 0 || x ≥ width || y < 0 || y ≥ height

/-- `isCollisionIndex(index)`: `this.collisions.includes(index)`
(source line 181-183). -/
def isCollisionIndex (collisions : List Int) (index : Int) : Bool :=
  collisions.contains index

/-- JavaScript array indexing `data[index]`: `undefined` (here `none`) for a
negative or out-of-range index. -/
def dataAt (data : List Tile) (index : Int) : Option Tile :=
  if index < 0 then none else data.get? index.toNat

/-- Truthiness of `this.data[index]`: `undefined` and the number `0` are
falsy; every array (even an empty one) is truthy. -/
def tileTruthy : Option Tile → Bool
  | none => false
  | some (.single n) => n != 0
  | some (.stack _) => true

/-- The world map model: the fields of the `Map` class that the verified
queries read.  `doors` is the lookup table built by `loadDoors`. -/
structure GameMap where
  width : Int
  height : Int
  data : List Tile
  collisions : List Int
  objects : List Nat
  cursors : List (Nat × String)
  doors : Int → Option ProcessedDoor

/-- `isColliding(x, y)` (source line 193-200): out of bounds is colliding;
otherwise an empty cell or a collision-set member is colliding. -/
def isColliding (m : GameMap) (x y : Int) : Bool :=
  if isOutOfBounds m.width m.height x y then true
  else
    let index := coordToIndex m.width x y
    !(tileTruthy (dataAt m.data index)) || isCollisionIndex m.collisions index

/-- `isDoor(x, y)`: `!!this.doors[this.coordToIndex(x, y)]`
(source line 159-161); an object is truthy, `undefined` is falsy. -/
def isDoor (m : GameMap) (x y : Int) : Bool :=
  (m.doors (coordToIndex m.width x y)).isSome

/-- `getDoor(x, y)`: `this.doors[this.coordToIndex(x, y)]`
(source line 245-247), `none` when no door is registered there. -/
def getDoor (m : GameMap) (x y : Int) : Option ProcessedDoor :=
  m.doors (coordToIndex m.width x y)

/-- Modelled from the spec: `Modules.MapFlags.HORIZONTAL_FLAG` (the enum
`Modules.MapFlags` from `@kaetram/common/network` is not under src/).  The
three flip flags occupy the three highest-order bits of a 32-bit tile
identifier, per the Tiled tile-flipping convention the source cites. -/
def HORIZONTAL_FLAG : Nat := 0x80000000

/-- Modelled from the spec: `Modules.MapFlags.VERTICAL_FLAG`, the middle of
the three high flag bits. -/
def VERTICAL_FLAG : Nat := 0x40000000

/-- Modelled from the spec: `Modules.MapFlags.DIAGONAL_FLAG`, the lowest of
the three flag bits (`isFlipped` compares against it). -/
def DIAGONAL_FLAG : Nat := 0x20000000

/-- The union of the three flag bits, as OR-ed together in the mask of
`getFlippedTile` (source line 338-342). -/
def FLAG_MASK : Nat := DIAGONAL_FLAG ||| VERTICAL_FLAG ||| HORIZONTAL_FLAG

/-- The decoded form of a rotated tile identifier (`RotatedTile`): base
identifier plus the three flip booleans. -/
structure RotatedTile where
  tileId : Nat
  h : Bool
  v : Bool
  d : Bool
deriving DecidableEq

/-- `isFlipped(tileId)`: `tileId > Modules.MapFlags.DIAGONAL_FLAG`
(source line 147-149). -/
def isFlipped (tileId : Nat) : Bool :=
  tileId > DIAGONAL_FLAG

/-- `getFlippedTile(tileId)` (source line 333-350): test each flag bit with
bitwise AND, then clear all three with `tileId &= ~(D | V | H)`.  For a
32-bit identifier the JavaScript int32 complement `~` keeps exactly the
other 29 bits, i.e. AND with `(2^32 - 1) XOR FLAG_MASK`. -/
def getFlippedTile (tileId : Nat) : RotatedTile :=
  { tileId := tileId &&& ((2 ^ 32 - 1) ^^^ FLAG_MASK)
    h := tileId &&& HORIZONTAL_FLAG != 0
    v := tileId &&& VERTICAL_FLAG != 0
    d := tileId &&& DIAGONAL_FLAG != 0 }

/-- The raw-identifier composition the claim quantifies over: a base
identifier combined (bitwise OR) with any subset of the three flags. -/
def applyFlips (base : Nat) (h v d : Bool) : Nat :=
  ((base ||| (if h then HORIZONTAL_FLAG else 0)) ||| (if v then VERTICAL_FLAG else 0)) |||
    (if d then DIAGONAL_FLAG else 0)

/-- The body of the `loadDoors` loop for one raw door (source line 94-114):
skip when `door.destination` is falsy (absent or `0`); otherwise find the
first door in the cloned list whose own id equals the destination
(`_.find` returns the first match) and build the processed entry from the
destination's position/orientation and the source's metadata.  The deep
clone is content-equal to the raw list (the loop mutates neither), so the
search runs over the same elements. -/
def resolveDoor (doorsClone : List ProcessedArea) (door : ProcessedArea) :
    Option ProcessedDoor :=
  match door.destination with
  | none => none
  | some dest =>
    if dest = 0 then none
    else
      match doorsClone.find? (fun cloneDoor => dest == cloneDoor.id) with
      | none => none
      | some destination =>
        some { x := destination.x
               y := destination.y
               orientation := jsOrString destination.orientation "d"
               quest := jsOrString door.quest ""
               achievement := jsOrString door.achievement ""
               stage := jsOrInt door.stage 0 }

/-- `loadDoors` (source line 87-116): iterate over the raw doors,
registering each resolvable door under its source tile index
`coordToIndex(door.x, door.y)`.  A later write to the same key overwrites
the earlier one (JavaScript object assignment). -/
def loadDoors (width : Int) (doors : List ProcessedArea) : Int → Option ProcessedDoor :=
  doors.foldl
    (fun table door =>
      match resolveDoor doors door with
      | none => table
      | some pd => fun i => if i = coordToIndex width door.x door.y then some pd else table i)
    (fun _ => none)

/-- First raw door of the spec's door-symmetry example:
`{id: 1, x: 5, y: 5, destination: 2}`. -/
def exampleDoor1 : ProcessedArea :=
  { id := 1, x := 5, y := 5, destination := some 2 }

/-- Second raw door of the spec's door-symmetry example:
`{id: 2, x: 10, y: 10, orientation: u}` (no destination). -/
def exampleDoor2 : ProcessedArea :=
  { id := 2, x := 10, y := 10, orientation := some "u" }

/-- The raw door list of the spec's door-symmetry example. -/
def exampleRawDoors : List ProcessedArea :=
  [exampleDoor1, exampleDoor2]

/-- A 16 x 16 map whose door table is linked from the example raw doors. -/
def exampleMap : GameMap :=
  { width := 16
    height := 16
    data := []
    collisions := []
    objects := []
    cursors := []
    doors := loadDoors 16 exampleRawDoors }

/-- The raw doors of the unresolved-destination example: the first door
declares destination `99`, which no door's id matches; the second resolves
to the first. -/
def unresolvedExampleDoors : List ProcessedArea :=
  [{ id := 1, x := 5, y := 5, destination := some 99 },
   { id := 2, x := 10, y := 10, destination := some 1 }]

/-- `forEachTile(data, callback)` (source line 371-374): visits every
element of a stacked cell in order, or the single identifier exactly once.
This function returns the visit order. -/
def forEachTile : Tile → List Nat
  | .stack l => l
  | .single n => [n]

/-- `isObject(data)` (source line 208-216): a flag starts `false` and is set
whenever a visited identifier is in `this.objects`. -/
def isObject (m : GameMap) (data : Tile) : Bool :=
  (forEachTile data).foldl
    (fun acc tileId => if m.objects.contains tileId then true else acc) false

/-- JavaScript object lookup `this.cursors[tileId]` guarded by
`tileId in this.cursors`: `none` when the key is absent. -/
def cursorAt (cursors : List (Nat × String)) (tileId : Nat) : Option String :=
  (cursors.find? (fun kv => kv.1 == tileId)).map (fun kv => kv.2)

/-- `getCursor(data)` (source line 256-264): the cursor variable starts as
the empty string and is overwritten by each visited identifier that has a
registered cursor. -/
def getCursor (m : GameMap) (data : Tile) : String :=
  (forEachTile data).foldl
    (fun cursor tileId =>
      match cursorAt m.cursors tileId with
      | some c => c
      | none => cursor) ""

/-- A decoded identifier inside a region tile: the raw number when the flip
check fails, or the decoded rotated form. -/
inductive ParsedTile where
  | plain : Nat → ParsedTile
  | flipped : RotatedTile → ParsedTile
deriving DecidableEq

/-- `RegionTile`, the result shape of `getTileData`: a scalar or an array,
mirroring the stack-vs-scalar shape of the cell. -/
inductive RegionTile where
  | scalar : ParsedTile → RegionTile
  | arr : List ParsedTile → RegionTile
deriving DecidableEq

/-- The per-identifier step of the `getTileData` loop (source line 310-313):
`if (this.isFlipped(tileId)) tile = this.getFlippedTile(tileId)`. -/
def parseTile (tileId : Nat) : ParsedTile :=
  if isFlipped tileId then .flipped (getFlippedTile tileId) else .plain tileId

/-- `getTileData(index)` (source line 302-320): `[]` when the cell is falsy
(absent, or the single number `0`); otherwise each visited identifier is
parsed, an array cell collecting the results in order and a scalar cell
yielding its single parsed identifier. -/
def getTileData (m : GameMap) (index : Int) : RegionTile :=
  match dataAt m.data index with
  | none => .arr []
  | some (.single 0) => .arr []
  | some (.single (n + 1)) => .scalar (parseTile (n + 1))
  | some (.stack l) => .arr (l.map parseTile)

/-- A map holding sample cells for evaluating `getTileData`: an empty cell,
a plain scalar, and a stack with one flipped identifier. -/
def tileExampleMap : GameMap :=
  { width := 4
    height := 4
    data := [.single 0, .single 5, .stack [3, 0x80000007], .stack []]
    collisions := []
    objects := []
    cursors := []
    doors := fun _ => none }

/-- The map of the object-stack example: object identifier set `{7}`. -/
def objectExampleMap : GameMap :=
  { width := 4
    height := 4
    data := []
    collisions := []
    objects := [7]
    cursors := []
    doors := fun _ => none }

/-- An area-group wrapper, standing for the `Areas` instance that
`AreasIndex[key](area, world)` constructs.  Modelled from the spec: the
group classes (directory `areas`) are not under src/; per the spec each
recognized group name constructs a collection wrapper over that group's
raw area list. -/
structure Areas where
  rawAreas : List ProcessedArea
deriving DecidableEq

/-- Modelled from the spec: the schema's five named area groups, standing in
for the keys of `AreasIndex` (file `areas/index` is not under src/) in the
concrete counterexample; `loadAreas` keeps the recognized keys as an
explicit parameter. -/
def specAreaGroupNames : List String :=
  ["warps", "lights", "chest", "dynamic", "doors"]

/-- `loadAreas` (source line 68-74): for each named raw group whose key is
in `AreasIndex`, register a constructed wrapper under that key; other keys
are skipped. -/
def loadAreas (areasIndexKeys : List String)
    (mapAreas : List (String × List ProcessedArea)) : List (String × Areas) :=
  mapAreas.filterMap
    (fun kv => if areasIndexKeys.contains kv.1 then some (kv.1, Areas.mk kv.2) else none)

/-- Lookup `this.areas[name]`. -/
def areaGroup (areas : List (String × Areas)) (name : String) : Option Areas :=
  (areas.find? (fun kv => kv.1 == name)).map (fun kv => kv.2)

/-- `getChestAreas()` (source line 223-225): `return this.areas.chests` —
the key read is `chests`. -/
def getChestAreas (areas : List (String × Areas)) : Option Areas :=
  areaGroup areas "chests"

end KaetramMap

namespace KaetramMap

/-- C3: for in-bounds coordinates, `indexToCoord` inverts `coordToIndex`,
and for in-range indices of a map with positive width, `coordToIndex`
applied to `indexToCoord index` yields the index back. -/
theorem coord_index_round_trip :
    (∀ width height x y : Int, 0 ≤ x → x < width → 0 ≤ y → y < height →
      indexToCoord width (coordToIndex width x y) = (x, y)) ∧
    (∀ width height index : Int, 0 < width → 0 ≤ index → index < width * height →
      coordToIndex width (indexToCoord width index).1 (indexToCoord width index).2 = index) := by
  constructor
  · intro width height x y hx hxw hy hyh
    have hw : (0 : Int) < width := lt_of_le_of_lt hx hxw
    have hidx : 0 ≤ y * width + x :=
      add_nonneg (mul_nonneg hy (le_of_lt hw)) hx
    unfold indexToCoord coordToIndex
    rw [Int.tmod_eq_emod hidx (le_of_lt hw), Int.fdiv_eq_ediv _ (le_of_lt hw)]
    have h1 : (y * width + x) % width = x := by
      rw [add_comm (y * width) x, mul_comm y width, Int.add_mul_emod_self_left,
        Int.emod_eq_of_lt hx hxw]
    have h2 : (y * width + x) / width = y := by
      rw [add_comm (y * width) x, mul_comm y width, Int.add_mul_ediv_left _ _ (ne_of_gt hw),
        Int.ediv_eq_zero_of_lt hx hxw, zero_add]
    rw [h1, h2]
  · intro width height index hw hi _
    unfold indexToCoord coordToIndex
    simp only
    rw [Int.tmod_eq_emod hi (le_of_lt hw), Int.fdiv_eq_ediv _ (le_of_lt hw)]
    have := Int.ediv_add_emod index width
    linarith

/-- Closed instance of `coord_index_round_trip` at concrete in-bounds input. -/
theorem coord_index_round_trip_witness :
    indexToCoord 16 (coordToIndex 16 5 7) = (5, 7) ∧
    coordToIndex 16 (indexToCoord 16 37).1 (indexToCoord 16 37).2 = 37 :=
  ⟨coord_index_round_trip.1 16 16 5 7 (by decide) (by decide) (by decide) (by decide),
   coord_index_round_trip.2 16 16 37 (by decide) (by decide) (by decide)⟩

/-- C4: `isOutOfBounds` is true exactly off the grid, and `isColliding` is
true exactly when out of bounds, or the cell at `y * width + x` is
empty/absent, or that index is in the collision set. -/
theorem isColliding_characterization :
    ∀ (m : GameMap) (x y : Int),
      (isOutOfBounds m.width m.height x y = true ↔
        (x < 0 ∨ x ≥ m.width ∨ y < 0 ∨ y ≥ m.height)) ∧
      (isColliding m x y = true ↔
        (isOutOfBounds m.width m.height x y = true ∨
          tileTruthy (dataAt m.data (y * m.width + x)) = false ∨
          isCollisionIndex m.collisions (y * m.width + x) = true)) := by
  intro m x y
  constructor
  · unfold isOutOfBounds
    simp [decide_eq_true_eq]
    tauto
  · unfold isColliding coordToIndex
    by_cases h : isOutOfBounds m.width m.height x y = true
    · simp [h]
    · rw [Bool.not_eq_true] at h
      simp [h]

theorem flag_eq_h : HORIZONTAL_FLAG = 2 ^ 31 := by decide

theorem flag_eq_v : VERTICAL_FLAG = 2 ^ 30 := by decide

theorem flag_eq_d : DIAGONAL_FLAG = 2 ^ 29 := by decide

theorem flag_mask_xor : (2 ^ 32 - 1) ^^^ FLAG_MASK = 2 ^ 29 - 1 := by decide

theorem and_two_pow_ne_zero (x k : Nat) : (x &&& 2 ^ k != 0) = x.testBit k := by
  cases hx : x.testBit k
  · have hzero : x &&& 2 ^ k = 0 := by
      apply Nat.eq_of_testBit_eq
      intro i
      rw [Nat.testBit_and, Nat.zero_testBit, Nat.testBit_two_pow]
      by_cases hik : k = i
      · subst hik; simp [hx]
      · simp [hik]
    simp [hzero]
  · have hbit : (x &&& 2 ^ k).testBit k = true := by
      rw [Nat.testBit_and, hx, Nat.testBit_two_pow_self]
      decide
    have hne : x &&& 2 ^ k ≠ 0 := by
      intro h0
      rw [h0, Nat.zero_testBit] at hbit
      exact Bool.false_ne_true hbit
    exact bne_iff_ne.mpr hne

theorem testBit_H (i : Nat) : HORIZONTAL_FLAG.testBit i = decide ((31 : Nat) = i) := by
  rw [flag_eq_h]; exact Nat.testBit_two_pow

theorem testBit_V (i : Nat) : VERTICAL_FLAG.testBit i = decide ((30 : Nat) = i) := by
  rw [flag_eq_v]; exact Nat.testBit_two_pow

theorem testBit_D (i : Nat) : DIAGONAL_FLAG.testBit i = decide ((29 : Nat) = i) := by
  rw [flag_eq_d]; exact Nat.testBit_two_pow

theorem testBit_applyFlips (base : Nat) (h v d : Bool) (i : Nat) :
    (applyFlips base h v d).testBit i =
      (base.testBit i || (h && decide ((31 : Nat) = i)) || (v && decide ((30 : Nat) = i)) ||
        (d && decide ((29 : Nat) = i))) := by
  unfold applyFlips
  cases h <;> cases v <;> cases d <;>
    simp [Nat.testBit_or, testBit_H, testBit_V, testBit_D]

/-- C2: decoding a base identifier OR-ed with any subset of the three flags
recovers the base and exactly those flags, and OR-ing the same flags back
onto the decoded base reproduces the raw identifier bit-for-bit. -/
theorem getFlippedTile_decode_encode :
    ∀ (base : Nat) (h v d : Bool), base < 2 ^ 32 → base &&& FLAG_MASK = 0 →
      getFlippedTile (applyFlips base h v d) = ⟨base, h, v, d⟩ ∧
      applyFlips (getFlippedTile (applyFlips base h v d)).tileId h v d =
        applyFlips base h v d := by
  intro base h v d hlt hmask
  have hbase_hi : ∀ i, 29 ≤ i → base.testBit i = false := by
    intro i hi
    by_cases h32 : 32 ≤ i
    · exact Nat.testBit_lt_two_pow
        (lt_of_lt_of_le hlt (Nat.pow_le_pow_right (by norm_num) h32))
    · have hmaskbit : (base &&& FLAG_MASK).testBit i = false := by
        rw [hmask, Nat.zero_testBit]
      rw [Nat.testBit_and] at hmaskbit
      have hflag : FLAG_MASK.testBit i = true := by
        have : i = 29 ∨ i = 30 ∨ i = 31 := by omega
        rcases this with hi' | hi' | hi' <;> subst hi' <;> decide
      rw [hflag, Bool.and_true] at hmaskbit
      exact hmaskbit
  have hBase : applyFlips base h v d &&& (2 ^ 29 - 1) = base := by
    apply Nat.eq_of_testBit_eq
    intro i
    rw [Nat.testBit_and, Nat.testBit_two_pow_sub_one, testBit_applyFlips]
    by_cases hi : i < 29
    · have h31 : decide ((31 : Nat) = i) = false := by simp; omega
      have h30 : decide ((30 : Nat) = i) = false := by simp; omega
      have h29 : decide ((29 : Nat) = i) = false := by simp; omega
      simp [h31, h30, h29, hi]
    · have hb : base.testBit i = false := hbase_hi i (by omega)
      simp [hb, hi]
  have hh : (applyFlips base h v d &&& HORIZONTAL_FLAG != 0) = h := by
    rw [flag_eq_h, and_two_pow_ne_zero, testBit_applyFlips, hbase_hi 31 (by omega)]
    simp
  have hv : (applyFlips base h v d &&& VERTICAL_FLAG != 0) = v := by
    rw [flag_eq_v, and_two_pow_ne_zero, testBit_applyFlips, hbase_hi 30 (by omega)]
    simp
  have hd : (applyFlips base h v d &&& DIAGONAL_FLAG != 0) = d := by
    rw [flag_eq_d, and_two_pow_ne_zero, testBit_applyFlips, hbase_hi 29 (by omega)]
    simp
  have hdecode : getFlippedTile (applyFlips base h v d) = ⟨base, h, v, d⟩ := by
    unfold getFlippedTile
    rw [flag_mask_xor]
    simp [RotatedTile.mk.injEq]
    exact ⟨hBase, hh, hv, hd⟩
  refine ⟨hdecode, ?_⟩
  rw [hdecode]

/-- Closed instance of `getFlippedTile_decode_encode` at base 12 with the
horizontal and diagonal flags set. -/
theorem getFlippedTile_decode_encode_witness :
    getFlippedTile (applyFlips 12 true false true) = ⟨12, true, false, true⟩ ∧
    applyFlips (getFlippedTile (applyFlips 12 true false true)).tileId true false true =
      applyFlips 12 true false true :=
  getFlippedTile_decode_encode 12 true false true (by decide) (by decide)

theorem loadDoors_foldl (width : Int) (all todo : List ProcessedArea)
    (acc : Int → Option ProcessedDoor) (idx : Int) :
    (todo.foldl
      (fun table door =>
        match resolveDoor all door with
        | none => table
        | some pd => fun i => if i = coordToIndex width door.x door.y then some pd else table i)
      acc) idx =
    match todo.reverse.find?
        (fun door => (resolveDoor all door).isSome &&
          coordToIndex width door.x door.y == idx) with
    | some door => resolveDoor all door
    | none => acc idx := by
  induction todo generalizing acc with
  | nil => rfl
  | cons door rest ih =>
    rw [List.foldl_cons, List.reverse_cons, ih, List.find?_append]
    cases hfind : rest.reverse.find?
        (fun door => (resolveDoor all door).isSome &&
          coordToIndex width door.x door.y == idx) with
    | some d => rfl
    | none =>
      cases hres : resolveDoor all door with
      | none => simp [List.find?, hres]
      | some pd =>
        by_cases hidx : coordToIndex width door.x door.y = idx
        · simp [List.find?, hres, hidx]
        · have hb : (coordToIndex width door.x door.y == idx) = false := by
            simp [hidx]
          have hne : idx ≠ coordToIndex width door.x door.y := fun h => hidx h.symm
          simp [List.find?, hres, hidx, hne, hb]

theorem loadDoors_eq (width : Int) (doors : List ProcessedArea) (idx : Int) :
    loadDoors width doors idx =
      match doors.reverse.find?
          (fun door => (resolveDoor doors door).isSome &&
            coordToIndex width door.x door.y == idx) with
      | some door => resolveDoor doors door
      | none => none := by
  unfold loadDoors
  exact loadDoors_foldl width doors doors (fun _ => none) idx

theorem loadDoors_isSome_iff (width : Int) (raws : List ProcessedArea) (idx : Int) :
    (loadDoors width raws idx).isSome = true ↔
      ∃ door ∈ raws, coordToIndex width door.x door.y = idx ∧
        (resolveDoor raws door).isSome = true := by
  rw [loadDoors_eq]
  cases hfind : raws.reverse.find?
      (fun door => (resolveDoor raws door).isSome &&
        coordToIndex width door.x door.y == idx) with
  | some door =>
    have hp := List.find?_some hfind
    rw [Bool.and_eq_true, beq_iff_eq] at hp
    have hmem : door ∈ raws := List.mem_reverse.mp (List.mem_of_find?_eq_some hfind)
    simp only
    constructor
    · intro _
      exact ⟨door, hmem, hp.2, hp.1⟩
    · intro _
      exact hp.1
  | none =>
    simp only [Option.isSome_none]
    constructor
    · intro h
      exact absurd h (by decide)
    · rintro ⟨door, hmem, hcoord, hres⟩
      have := List.find?_eq_none.mp hfind door (List.mem_reverse.mpr hmem)
      rw [Bool.and_eq_true, beq_iff_eq] at this
      exact absurd ⟨hres, hcoord⟩ this

theorem loadDoors_some_inv (width : Int) (raws : List ProcessedArea) (idx : Int)
    (pd : ProcessedDoor) (hpd : loadDoors width raws idx = some pd) :
    ∃ door ∈ raws, coordToIndex width door.x door.y = idx ∧
      resolveDoor raws door = some pd := by
  rw [loadDoors_eq] at hpd
  cases hfind : raws.reverse.find?
      (fun door => (resolveDoor raws door).isSome &&
        coordToIndex width door.x door.y == idx) with
  | some door =>
    rw [hfind] at hpd
    have hp := List.find?_some hfind
    rw [Bool.and_eq_true, beq_iff_eq] at hp
    exact ⟨door, List.mem_reverse.mp (List.mem_of_find?_eq_some hfind), hp.2, hpd⟩
  | none =>
    rw [hfind] at hpd
    exact absurd hpd (by simp)

theorem resolveDoor_first_match (raws : List ProcessedArea) (door : ProcessedArea)
    (dest : Int) (hdest : door.destination = some dest) (hne : dest ≠ 0) :
    resolveDoor raws door =
      (raws.find? (fun cloneDoor => dest == cloneDoor.id)).map
        (fun destination =>
          { x := destination.x
            y := destination.y
            orientation := jsOrString destination.orientation "d"
            quest := jsOrString door.quest ""
            achievement := jsOrString door.achievement ""
            stage := jsOrInt door.stage 0 }) := by
  unfold resolveDoor
  rw [hdest]
  simp only [hne, if_false]
  cases raws.find? (fun cloneDoor => dest == cloneDoor.id) with
  | none => rfl
  | some destination => rfl

/-- C1: `loadDoors` registers an entry exactly for each raw door whose
declared destination is matched by some raw door's id; the entry sits under
the source door's tile index and is built from the first matching
destination door in list order (its x, y and orientation, defaulting to
down) together with the source door's quest/achievement/stage metadata
(defaulting to empty/empty/0); on the spec's example doors,
`getDoor(5,5)` is `{x:10, y:10, orientation:u, quest:, achievement:,
stage:0}` and `isDoor(10,10)` is false. -/
theorem loadDoors_registers_exactly :
    (∀ (width : Int) (raws : List ProcessedArea) (idx : Int),
      ((loadDoors width raws idx).isSome = true ↔
        ∃ door ∈ raws, coordToIndex width door.x door.y = idx ∧
          (resolveDoor raws door).isSome = true) ∧
      (∀ pd, loadDoors width raws idx = some pd →
        ∃ door ∈ raws, coordToIndex width door.x door.y = idx ∧
          resolveDoor raws door = some pd)) ∧
    (∀ (raws : List ProcessedArea) (door : ProcessedArea) (dest : Int),
      door.destination = some dest → dest ≠ 0 →
      resolveDoor raws door =
        (raws.find? (fun cloneDoor => dest == cloneDoor.id)).map
          (fun destination =>
            { x := destination.x
              y := destination.y
              orientation := jsOrString destination.orientation "d"
              quest := jsOrString door.quest ""
              achievement := jsOrString door.achievement ""
              stage := jsOrInt door.stage 0 })) ∧
    getDoor exampleMap 5 5 =
      some { x := 10, y := 10, orientation := "u", quest := "", achievement := "",
             stage := 0 } ∧
    isDoor exampleMap 10 10 = false := by
  refine ⟨?_, ?_, ?_, ?_⟩
  · intro width raws idx
    exact ⟨loadDoors_isSome_iff width raws idx, loadDoors_some_inv width raws idx⟩
  · intro raws door dest hdest hne
    exact resolveDoor_first_match raws door dest hdest hne
  · decide
  · decide

/-- Closed instance of `loadDoors_registers_exactly`: the first-match rule
evaluated on the example doors. -/
theorem loadDoors_registers_exactly_witness :
    resolveDoor exampleRawDoors exampleDoor1 =
      some { x := 10, y := 10, orientation := "u", quest := "", achievement := "",
             stage := 0 } := by
  rw [loadDoors_registers_exactly.2.1 exampleRawDoors exampleDoor1 2 (by decide) (by decide)]
  decide

/-- C5: a raw door whose destination matches no raw door's id is dropped:
it registers nothing (every table entry originates from a different,
resolvable door, and under distinct source indices its own index stays
empty), while every other resolvable door is still registered. -/
theorem loadDoors_unresolved_dropped :
    ∀ (width : Int) (raws : List ProcessedArea) (door : ProcessedArea) (dest : Int),
      door ∈ raws → door.destination = some dest → dest ≠ 0 →
      (∀ other ∈ raws, other.id ≠ dest) →
      resolveDoor raws door = none ∧
      (∀ idx pd, loadDoors width raws idx = some pd →
        ∃ other ∈ raws, other ≠ door ∧ coordToIndex width other.x other.y = idx ∧
          resolveDoor raws other = some pd) ∧
      (∀ other ∈ raws, ∀ pd, resolveDoor raws other = some pd →
        (loadDoors width raws (coordToIndex width other.x other.y)).isSome = true) ∧
      ((∀ other ∈ raws, other = door ∨
          coordToIndex width other.x other.y ≠ coordToIndex width door.x door.y) →
        loadDoors width raws (coordToIndex width door.x door.y) = none) := by
  intro width raws door dest hmem hdest hne hnoid
  have hdrop : resolveDoor raws door = none := by
    unfold resolveDoor
    rw [hdest]
    simp only [hne, if_false]
    have : raws.find? (fun cloneDoor => dest == cloneDoor.id) = none := by
      rw [List.find?_eq_none]
      intro x hx
      simp only [beq_iff_eq]
      exact fun h => hnoid x hx h.symm
    rw [this]
  refine ⟨hdrop, ?_, ?_, ?_⟩
  · intro idx pd hpd
    obtain ⟨other, hm, hc, hr⟩ := loadDoors_some_inv width raws idx pd hpd
    refine ⟨other, hm, ?_, hc, hr⟩
    intro hod
    rw [hod, hdrop] at hr
    exact Option.noConfusion hr
  · intro other hm pd hr
    exact (loadDoors_isSome_iff width raws
      (coordToIndex width other.x other.y)).mpr ⟨other, hm, rfl, by rw [hr]; rfl⟩
  · intro hdist
    rw [loadDoors_eq]
    have : raws.reverse.find?
        (fun d => (resolveDoor raws d).isSome &&
          coordToIndex width d.x d.y == coordToIndex width door.x door.y) = none := by
      rw [List.find?_eq_none]
      intro x hx
      rw [Bool.and_eq_true, beq_iff_eq]
      rintro ⟨hrx, hcx⟩
      rcases hdist x (List.mem_reverse.mp hx) with hxd | hxd
      · rw [hxd, hdrop] at hrx
        exact absurd hrx (by decide)
      · exact hxd hcx
    rw [this]

/-- Closed instance of `loadDoors_unresolved_dropped` on the
unresolved-destination example: the bad door's index stays empty while the
other door is still linked. -/
theorem loadDoors_unresolved_dropped_witness :
    loadDoors 16 unresolvedExampleDoors (coordToIndex 16 5 5) = none ∧
    (loadDoors 16 unresolvedExampleDoors (coordToIndex 16 10 10)).isSome = true := by
  have h := loadDoors_unresolved_dropped 16 unresolvedExampleDoors
    { id := 1, x := 5, y := 5, destination := some 99 } 99
    (by decide) (by decide) (by decide) (by decide)
  constructor
  · exact h.2.2.2 (by decide)
  · exact h.2.2.1 { id := 2, x := 10, y := 10, destination := some 1 } (by decide)
      { x := 5, y := 5, orientation := "d", quest := "", achievement := "", stage := 0 }
      (by decide)

theorem lt_two_pow_29_of_no_flags (x : Nat) (hlt : x < 2 ^ 32)
    (hmask : x &&& FLAG_MASK = 0) : x < 2 ^ 29 := by
  apply Nat.lt_pow_two_of_testBit
  intro i hi
  by_cases h32 : 32 ≤ i
  · exact Nat.testBit_lt_two_pow
      (lt_of_lt_of_le hlt (Nat.pow_le_pow_right (by norm_num) h32))
  · have hmaskbit : (x &&& FLAG_MASK).testBit i = false := by
      rw [hmask, Nat.zero_testBit]
    rw [Nat.testBit_and] at hmaskbit
    have hflag : FLAG_MASK.testBit i = true := by
      have hcase : i = 29 ∨ i = 30 ∨ i = 31 := by omega
      rcases hcase with hi' | hi' | hi' <;> subst hi' <;> decide
    rw [hflag, Bool.and_true] at hmaskbit
    exact hmaskbit

/-- C6: `getTileData` is empty on a falsy cell; on a stack it maps every
identifier through the flip decode, preserving list shape and order; on a
nonzero scalar it yields the scalar decoded form; and an identifier with no
flag bit set passes through unchanged as the original number. -/
theorem getTileData_characterization :
    ∀ (m : GameMap) (index : Int),
      (tileTruthy (dataAt m.data index) = false → getTileData m index = .arr []) ∧
      (∀ l, dataAt m.data index = some (.stack l) →
        getTileData m index = .arr (l.map parseTile)) ∧
      (∀ n, dataAt m.data index = some (.single n) → n ≠ 0 →
        getTileData m index = .scalar (parseTile n)) ∧
      (∀ tileId, tileId < 2 ^ 32 → tileId &&& FLAG_MASK = 0 →
        parseTile tileId = .plain tileId) := by
  intro m index
  refine ⟨?_, ?_, ?_, ?_⟩
  · intro hfalsy
    unfold getTileData
    cases hdata : dataAt m.data index with
    | none => rfl
    | some t =>
      cases t with
      | single n =>
        cases n with
        | zero => rfl
        | succ k =>
          rw [hdata] at hfalsy
          exact absurd hfalsy (by simp [tileTruthy])
      | stack l =>
        rw [hdata] at hfalsy
        exact absurd hfalsy (by simp [tileTruthy])
  · intro l hdata
    unfold getTileData
    rw [hdata]
  · intro n hdata hn
    unfold getTileData
    rw [hdata]
    cases n with
    | zero => exact absurd rfl hn
    | succ k => rfl
  · intro tileId hlt hmask
    have hsmall : tileId < 2 ^ 29 := lt_two_pow_29_of_no_flags tileId hlt hmask
    have hflip : isFlipped tileId = false := by
      unfold isFlipped
      rw [flag_eq_d]
      simp only [gt_iff_lt, decide_eq_false_iff_not, not_lt]
      omega
    unfold parseTile
    rw [hflip]
    simp

/-- Closed instance of `getTileData_characterization` on the sample map:
the empty cell, the plain scalar and the stacked cell with one flipped
identifier. -/
theorem getTileData_characterization_witness :
    getTileData tileExampleMap 1 = .scalar (.plain 5) ∧
    getTileData tileExampleMap 0 = .arr [] ∧
    getTileData tileExampleMap 2 =
      .arr [.plain 3, .flipped ⟨7, true, false, false⟩] := by
  refine ⟨?_, ?_, ?_⟩
  · rw [(getTileData_characterization tileExampleMap 1).2.2.1 5 (by decide) (by decide)]
    decide
  · exact (getTileData_characterization tileExampleMap 0).1 (by decide)
  · rw [(getTileData_characterization tileExampleMap 2).2.1 [3, 0x80000007] (by decide)]
    decide

theorem foldl_contains_or (objects : List Nat) (l : List Nat) (b : Bool) :
    l.foldl (fun acc tileId => if objects.contains tileId then true else acc) b =
      (b || l.any (fun tileId => objects.contains tileId)) := by
  induction l generalizing b with
  | nil => simp
  | cons t l ih =>
    rw [List.foldl_cons, ih]
    cases h : objects.contains t with
    | true =>
      have hm : t ∈ objects := List.elem_iff.mp h
      cases b <;> simp [h, hm]
    | false =>
      have hm : t ∉ objects := by
        intro hmem
        have helem : objects.contains t = true := List.elem_iff.mpr hmem
        rw [helem] at h
        exact Bool.noConfusion h
      cases b <;> simp [h, hm]

/-- C7: `isObject` is true exactly when some identifier visited by
`forEachTile` (the scalar, or a stack element, in order) is in the objects
list; with object set 7, the stack 3,7,9 is an object and 3,9 is not. -/
theorem isObject_iff :
    (∀ (m : GameMap) (data : Tile),
      isObject m data = true ↔ ∃ tileId ∈ forEachTile data, tileId ∈ m.objects) ∧
    isObject objectExampleMap (.stack [3, 7, 9]) = true ∧
    isObject objectExampleMap (.stack [3, 9]) = false := by
  refine ⟨?_, by decide, by decide⟩
  intro m data
  unfold isObject
  rw [foldl_contains_or]
  simp [List.any_eq_true, List.contains_iff_exists_mem_beq, beq_iff_eq]

theorem getLast?_cons_getD {α : Type} (x : α) (xs : List α) (a : α) :
    ((x :: xs).getLast?).getD a = (xs.getLast?).getD x := by
  cases xs with
  | nil => rfl
  | cons y ys =>
    rw [List.getLast?_cons_cons]
    cases hyy : (y :: ys).getLast? with
    | none =>
      exact absurd (List.getLast?_eq_none_iff.mp hyy) (by simp)
    | some z => rfl

theorem foldl_cursor_last (cursors : List (Nat × String)) (l : List Nat) (acc : String) :
    l.foldl
      (fun cursor tileId =>
        match cursorAt cursors tileId with
        | some c => c
        | none => cursor) acc =
    ((l.filterMap (cursorAt cursors)).getLast?).getD acc := by
  induction l generalizing acc with
  | nil => rfl
  | cons t l ih =>
    rw [List.foldl_cons, ih, List.filterMap_cons]
    cases hc : cursorAt cursors t with
    | none => rfl
    | some c => rw [getLast?_cons_getD]

/-- C8: `getCursor` returns the cursor registered for the last visited
identifier that has one, and the empty string when no visited identifier
has a registered cursor. -/
theorem getCursor_last_wins :
    ∀ (m : GameMap) (data : Tile),
      getCursor m data =
        (((forEachTile data).filterMap (cursorAt m.cursors)).getLast?).getD "" := by
  intro m data
  unfold getCursor
  exact foldl_cursor_last m.cursors (forEachTile data) ""

/-- C9 counterexample: with the dataset's chest group under the schema key
chest (and that key recognized), `loadAreas` registers the group under
chest, but `getChestAreas` reads the key chests and returns nothing. -/
theorem getChestAreas_schema_key_counterexample :
    getChestAreas (loadAreas specAreaGroupNames
      [("chest", [{ id := 1, x := 0, y := 0 }])]) = none ∧
    areaGroup (loadAreas specAreaGroupNames
      [("chest", [{ id := 1, x := 0, y := 0 }])]) "chest" =
      some (Areas.mk [{ id := 1, x := 0, y := 0 }]) := by
  decide

/-- C9 amended: `getChestAreas` returns the group registered under the key
chests, not chest: whenever the dataset's areas hold the chest group under
the key chests and that key is recognized by the area index, `getChestAreas`
returns the wrapper `loadAreas` built from that group; a group under the
schema key chest is exposed through the map's static chest list, not
through `getChestAreas`. -/
theorem getChestAreas_returns_chests_group :
    ∀ (areasIndexKeys : List String) (mapAreas : List (String × List ProcessedArea))
      (group : List ProcessedArea),
      areasIndexKeys.contains "chests" = true →
      mapAreas.find? (fun kv => kv.1 == "chests") = some ("chests", group) →
      getChestAreas (loadAreas areasIndexKeys mapAreas) = some (Areas.mk group) := by
  intro areasIndexKeys mapAreas group hkeys
  induction mapAreas with
  | nil => intro h; exact absurd h (by simp)
  | cons kv rest ih =>
    intro hfind
    have hload : loadAreas areasIndexKeys (kv :: rest) =
        if areasIndexKeys.contains kv.1 then
          (kv.1, Areas.mk kv.2) :: loadAreas areasIndexKeys rest
        else loadAreas areasIndexKeys rest := by
      unfold loadAreas
      rw [List.filterMap_cons]
      cases hc : areasIndexKeys.contains kv.1 <;> simp [hc]
    cases hk : (kv.1 == "chests") with
    | true =>
      have hstep : List.find? (fun kv => kv.1 == "chests") (kv :: rest) = some kv :=
        List.find?_cons_of_pos rest hk
      rw [hstep] at hfind
      have hkv : kv = ("chests", group) := by injection hfind
      subst hkv
      rw [hload]
      have hc : areasIndexKeys.contains ("chests", group).1 = true := hkeys
      rw [hc, if_pos rfl]
      simp [getChestAreas, areaGroup]
    | false =>
      have hstep : List.find? (fun kv => kv.1 == "chests") (kv :: rest) =
          List.find? (fun kv => kv.1 == "chests") rest :=
        List.find?_cons_of_neg rest (by simp [hk])
      rw [hstep] at hfind
      have htail := ih hfind
      rw [hload]
      cases hrec : areasIndexKeys.contains kv.1 with
      | true =>
        rw [if_pos rfl]
        unfold getChestAreas areaGroup
        have hstep2 : List.find? (fun kv => kv.1 == "chests")
            ((kv.1, Areas.mk kv.2) :: loadAreas areasIndexKeys rest) =
            List.find? (fun kv => kv.1 == "chests") (loadAreas areasIndexKeys rest) :=
          List.find?_cons_of_neg _ (by simp [hk])
        rw [hstep2]
        unfold getChestAreas areaGroup at htail
        exact htail
      | false =>
        rw [if_neg (by simp)]
        exact htail

/-- Closed instance of `getChestAreas_returns_chests_group` at a one-group
dataset keyed chests. -/
theorem getChestAreas_returns_chests_group_witness :
    getChestAreas (loadAreas ["chests"]
      [("chests", [{ id := 1, x := 0, y := 0 }])]) =
      some (Areas.mk [{ id := 1, x := 0, y := 0 }]) :=
  getChestAreas_returns_chests_group ["chests"]
    [("chests", [{ id := 1, x := 0, y := 0 }])]
    [{ id := 1, x := 0, y := 0 }] (by decide) (by decide)

/-- C10: `isDoor` and `getDoor` consult the same table under the same key:
`isDoor` is true exactly when `getDoor` yields a door. -/
theorem isDoor_iff_getDoor :
    ∀ (m : GameMap) (x y : Int),
      isDoor m x y = true ↔ (getDoor m x y).isSome = true := by
  intro m x y
  unfold isDoor getDoor
  exact Iff.rfl

end KaetramMap
